import Mathlib

/-!
Shallow embedding of `src/utils/train_utils.py` (checkpoint save/load,
logging-mode selection, and the label-mask / connectivity helpers), together
with theorems settling the specification claims about them.
-/

namespace TrainUtils

/-- Python float values that occur as checkpoint scores: rationals together
with `float("inf")` and `float("-inf")`.  `WithBot (WithTop ℚ)` carries exactly
the linear order that Python's `<` induces on this set (NaN never arises in the
modelled code paths). -/
abbrev PyFloat := WithBot (WithTop ℚ)

/-- `float("inf")`. -/
def PyFloat.pinf : PyFloat := ((⊤ : WithTop ℚ) : WithBot (WithTop ℚ))

/-- `float("-inf")`. -/
def PyFloat.ninf : PyFloat := (⊥ : WithBot (WithTop ℚ))

/-- A finite float, modelled as a rational. -/
def PyFloat.val (q : ℚ) : PyFloat := ((q : WithTop ℚ) : WithBot (WithTop ℚ))

/-- The `mode` argument of `save_checkpoint` (the leading
`assert mode == "min" or mode == "max"` restricts it to these two values). -/
inductive Mode
  | min
  | max
  deriving DecidableEq

/-- The fields of `args` that `save_checkpoint` reads. -/
structure SaveArgs where
  no_save : Bool
  save_interval : Int
  step_checkpoints : Bool
  deriving DecidableEq

/-- The hidden bookkeeping attached to the `save_checkpoint` function object:
`save_checkpoint.last_step`, `.best_score`, `.best_step`.  `last_step` is read
with `getattr(..., -1)`, so the unset attribute is observationally the value
`-1` and is stored as a plain `Int`.  `best_score` is read with a per-call
default that depends on `mode`, and `best_step` is read with no default at
all, so for those two "attribute unset" (`none`) must be distinguished from
any value. -/
structure Hidden where
  last_step : Int
  best_score : Option PyFloat
  best_step : Option Int
  deriving DecidableEq

/-- A fresh process: none of the three attributes has ever been set. -/
def Hidden.fresh : Hidden := { last_step := -1, best_score := none, best_step := none }

/-- The bookkeeping part of the serialized `state_dict` (lines 97-108).  The
`model`/`optimizer`/`scheduler`/`args` entries are opaque blobs that no claim
inspects and are omitted.  `last_step`/`best_step`/`best_score` are `Option`
so that `load_checkpoint`'s `"..." in state_dict` presence tests on foreign
records can be expressed; `save_checkpoint` always writes all three keys.
(A record whose `best_score` key holds Python `None` is not modelled: the
code can never write one, because the `state_dict` literal reads
`save_checkpoint.best_step` — raising `AttributeError` when unset — before
the `getattr(save_checkpoint, "best_score", None)` entry, and both
attributes are only ever set together.) -/
structure Record where
  step : Int
  score : PyFloat
  last_step : Option Int
  best_step : Option Int
  best_score : Option PyFloat
  deriving DecidableEq

/-- One `torch.save` target of a single `save_checkpoint` call, identified by
its path under `args.checkpoint_dir` (lines 110-115). -/
inductive FileWrite
  | stepCkpt (step : Int)
  | bestCkpt
  | lastCkpt
  deriving DecidableEq

/-- Everything observable about one `save_checkpoint` call: the hidden
bookkeeping afterwards, whether `os.makedirs(args.checkpoint_dir, ...)` ran,
which checkpoint files were written (with the serialized record), and whether
the call raised `AttributeError` while building the `state_dict` (it does so
after `makedirs` and before any `torch.save`, so on error no file is
written but the hidden state has already been updated). -/
structure SaveResult where
  hidden : Hidden
  madeCheckpointDir : Bool
  writes : List FileWrite
  record : Option Record
  attrError : Bool
  deriving DecidableEq

/-- `float("inf") if mode == "min" else float("-inf")` (line 87). -/
def default_score (mode : Mode) : PyFloat :=
  match mode with
  | .min => PyFloat.pinf
  | .max => PyFloat.ninf

/-- The comparison `(score < best_score and mode == "min") or
(score > best_score and mode == "max")` (lines 89 and 112). -/
def improves (mode : Mode) (score best : PyFloat) : Bool :=
  match mode with
  | .min => decide (score < best)
  | .max => decide (best < score)

/-- Lines 84-91 of `save_checkpoint`: update the hidden bookkeeping
(`last_step := max(last_step, step)`; on strict improvement,
`best_step := step` and `best_score := score`). -/
def update_hidden (step : Int) (score : PyFloat) (mode : Mode) (h : Hidden) : Hidden :=
  let ls := max h.last_step step
  let best := h.best_score.getD (default_score mode)
  if improves mode score best then
    { last_step := ls, best_score := some score, best_step := some step }
  else
    { h with last_step := ls }

/-- `save_checkpoint(args, step, model, ..., score, mode)` (lines 82-115),
restricted to its observable bookkeeping and I/O behaviour.  The guard
`not args.no_save and step % args.save_interval == 0` decides whether the
I/O branch runs.  (Python's `%` and `Int.emod` agree on when the remainder
is zero for a nonzero divisor; `args.save_interval == 0` would raise
`ZeroDivisionError` in Python and is outside every claim's inputs.)  Inside
the branch, building the `state_dict` reads `save_checkpoint.best_step`
without a `getattr` default, so an unset `best_step` raises
`AttributeError` after the directory was created and before any file write. -/
def save_checkpoint (args : SaveArgs) (step : Int) (score : PyFloat) (mode : Mode)
    (h : Hidden) : SaveResult :=
  let prev_last := h.last_step
  let best := h.best_score.getD (default_score mode)
  let h2 := update_hidden step score mode h
  if !args.no_save && step % args.save_interval == 0 then
    match h2.best_step with
    | none =>
        { hidden := h2, madeCheckpointDir := true, writes := [], record := none,
          attrError := true }
    | some bstep =>
        let sd : Record :=
          { step := step, score := score, last_step := some h2.last_step,
            best_step := some bstep, best_score := h2.best_score }
        let writes :=
          (if args.step_checkpoints then [FileWrite.stepCkpt step] else [])
            ++ (if improves mode score best then [FileWrite.bestCkpt] else [])
            ++ (if step > prev_last then [FileWrite.lastCkpt] else [])
        { hidden := h2, madeCheckpointDir := true, writes := writes,
          record := some sd, attrError := false }
  else
    { hidden := h2, madeCheckpointDir := false, writes := [], record := none,
      attrError := false }

/-- `load_checkpoint` (lines 118-129), restricted to the hidden bookkeeping.
`fs` maps a path to the record stored there (`none` = `os.path.isfile` is
false).  Only `best_score` and `last_step` are restored (each behind a
`"..." in state_dict` presence test); `best_step` is never touched. -/
def load_checkpoint (restore_file : Option String) (fs : String → Option Record)
    (h : Hidden) : Hidden :=
  match restore_file with
  | none => h
  | some p =>
    match fs p with
    | none => h
    | some sd =>
      let h1 := match sd.best_score with
        | some v => { h with best_score := some v }
        | none => h
      match sd.last_step with
      | some v => { h1 with last_step := v }
      | none => h1

/-- Lines 68-75 of `init_logging`: the mode of the file handler it installs
(`none` when no file handler is installed).  The source computes
`"a" if os.path.isfile(args.resume_training) else "w"` — it passes the
BOOLEAN `resume_training` flag to `os.path.isfile`, which `os.stat` then
treats as file descriptor 0 or 1; `fdIsRegularFile b` is that test's result
(for a process whose stdin/stdout are terminals or pipes it is `false` for
both).  The configured restore file plays no role. -/
def init_logging_file_mode (no_log : Bool) (log_file : Option String)
    (resume_training : Bool) (fdIsRegularFile : Bool → Bool) : Option String :=
  if !no_log && log_file.isSome then
    some (if fdIsRegularFile resume_training then "a" else "w")
  else
    none

/-- Modelled from the spec: §4.2 says the log "file is opened in append mode
if resuming from an existing valid restore file, else truncated", i.e. the
mode should be `"a"` exactly when the configured restore file names an
existing file on disk.  Stated for comparison with
`init_logging_file_mode`, which is what the source actually does. -/
def init_logging_file_mode_spec (no_log : Bool) (log_file : Option String)
    (restore_file : Option String) (fs : String → Option Record) : Option String :=
  if !no_log && log_file.isSome then
    some (if (match restore_file with
              | some p => (fs p).isSome
              | none => false) then "a" else "w")
  else
    none

/-- `bool_mask(target, context)` (lines 152-158): the T×C matrix with entry
`(i, j)` true iff `target[i] == context[j]` (built in the source by
broadcasting `torch.eq` over the two expanded label tensors). -/
def bool_mask (target context : List Int) : List (List Bool) :=
  target.map (fun t => context.map (fun c => decide (t = c)))

/-- `bool_mask(target, context, float=True)`: the same matrix after `.float()`
(1.0 where true, 0.0 where false). -/
def bool_mask_float (target context : List Int) : List (List ℚ) :=
  (bool_mask target context).map (fun row => row.map (fun b => if b then (1 : ℚ) else 0))

/-- `torch.unique(target_labels)` (line 169): the distinct values occurring in
`target_labels`, in ascending order. -/
def uniqueLabels (labels : List Int) : List Int :=
  labels.dedup.mergeSort (fun a b => decide (a ≤ b))

/-- `(target_labels==i).nonzero()` (line 170): the positions of
`target_labels` that hold label `i`, in order. -/
def groupIndices (labels : List Int) (i : Int) : List Nat :=
  (List.range labels.length).filter (fun j => decide (labels.getD j 0 = i))

/-- Lines 166-173 of `connectivity`: grouping the per-row distances by label
and averaging within each group.  `gc` abstracts the length-T vector
`pdist(F.normalize(mask,p=1,dim=1), F.normalize(graph,p=1,dim=1))` — an
opaque numeric vector as far as the grouping and the division by
`len(scores)` are concerned. -/
def connectivity (gc : List ℚ) (target_labels : List Int) : List (Int × ℚ) :=
  (uniqueLabels target_labels).map (fun i =>
    let scores := (groupIndices target_labels i).map (fun j => gc.getD j 0)
    (i, scores.foldl (· + ·) 0 / (scores.length : ℚ)))

/-- A sequence of `save_checkpoint` calls in one process, threading the hidden
state; alongside the final hidden state it reports, per call, whether that
call updated the hidden best pair (i.e. took the improvement branch). -/
def run_saves (args : SaveArgs) (mode : Mode) : Hidden → List (Int × PyFloat) → Hidden × List Bool
  | h, [] => (h, [])
  | h, (step, score) :: rest =>
    let upd := improves mode score (h.best_score.getD (default_score mode))
    let r := save_checkpoint args step score mode h
    let p := run_saves args mode r.hidden rest
    (p.1, upd :: p.2)

/-! ## Helper lemmas -/

theorem val_lt_pinf (q : ℚ) : PyFloat.val q < PyFloat.pinf :=
  WithBot.coe_lt_coe.mpr (WithTop.coe_lt_top q)

theorem ninf_lt_val (q : ℚ) : PyFloat.ninf < PyFloat.val q :=
  WithBot.bot_lt_coe _

theorem pinf_eq_top : PyFloat.pinf = (⊤ : PyFloat) := rfl

theorem lt_pinf_of_ne {s : PyFloat} (h : s ≠ PyFloat.pinf) : s < PyFloat.pinf := by
  rw [pinf_eq_top] at h ⊢
  exact lt_top_iff_ne_top.mpr h

theorem update_hidden_of_improves (step : Int) (score : PyFloat) (mode : Mode) (h : Hidden)
    (himp : improves mode score (h.best_score.getD (default_score mode)) = true) :
    update_hidden step score mode h =
      { last_step := max h.last_step step, best_score := some score, best_step := some step } := by
  simp [update_hidden, himp]

theorem update_hidden_of_not_improves (step : Int) (score : PyFloat) (mode : Mode) (h : Hidden)
    (himp : improves mode score (h.best_score.getD (default_score mode)) = false) :
    update_hidden step score mode h = { h with last_step := max h.last_step step } := by
  simp [update_hidden, himp]

theorem update_hidden_last_step (step : Int) (score : PyFloat) (mode : Mode) (h : Hidden) :
    (update_hidden step score mode h).last_step = max h.last_step step := by
  simp only [update_hidden]
  split <;> rfl

/-- Characterization of `save_checkpoint` when the guard fails: the no-I/O
branch. -/
theorem save_no_io_eq (args : SaveArgs) (step : Int) (score : PyFloat) (mode : Mode)
    (h : Hidden) (hg : (!args.no_save && step % args.save_interval == 0) = false) :
    save_checkpoint args step score mode h =
      { hidden := update_hidden step score mode h, madeCheckpointDir := false,
        writes := [], record := none, attrError := false } := by
  simp [save_checkpoint, hg]

/-- Characterization of `save_checkpoint` in the I/O branch when the hidden
`best_step` is unset after the bookkeeping update: `AttributeError`. -/
theorem save_io_err_eq (args : SaveArgs) (step : Int) (score : PyFloat) (mode : Mode)
    (h : Hidden) (hg : (!args.no_save && step % args.save_interval == 0) = true)
    (hb : (update_hidden step score mode h).best_step = none) :
    save_checkpoint args step score mode h =
      { hidden := update_hidden step score mode h, madeCheckpointDir := true,
        writes := [], record := none, attrError := true } := by
  simp [save_checkpoint, hg, hb]

/-- Characterization of `save_checkpoint` in the I/O branch when the hidden
`best_step` is set: the three conditional file writes and the record. -/
theorem save_io_eq (args : SaveArgs) (step : Int) (score : PyFloat) (mode : Mode)
    (h : Hidden) (bstep : Int)
    (hg : (!args.no_save && step % args.save_interval == 0) = true)
    (hb : (update_hidden step score mode h).best_step = some bstep) :
    save_checkpoint args step score mode h =
      { hidden := update_hidden step score mode h,
        madeCheckpointDir := true,
        writes := (if args.step_checkpoints then [FileWrite.stepCkpt step] else [])
          ++ (if improves mode score (h.best_score.getD (default_score mode))
              then [FileWrite.bestCkpt] else [])
          ++ (if step > h.last_step then [FileWrite.lastCkpt] else []),
        record := some { step := step, score := score,
                         last_step := (update_hidden step score mode h).last_step,
                         best_step := some bstep,
                         best_score := (update_hidden step score mode h).best_score },
        attrError := false } := by
  simp [save_checkpoint, hg, hb]

theorem load_best_step_eq (rf : Option String) (fs : String → Option Record) (h : Hidden) :
    (load_checkpoint rf fs h).best_step = h.best_step := by
  rcases rf with _ | p
  · rfl
  · rcases hfs : fs p with _ | sd
    · simp [load_checkpoint, hfs]
    · rcases hb : sd.best_score with _ | v <;> rcases hl : sd.last_step with _ | w <;>
        simp [load_checkpoint, hfs, hb, hl]

/-! ## Claim C1 -/

/-- C1: save/load round-trip.  From a fresh process, after `save_checkpoint`
at `step = 10` with `score = 0.5` (with `no_save` unset, `save_interval`
dividing 10, either mode — 0.5 improves both default bests), a
`load_checkpoint` whose `restore_file` names the written checkpoint file
restores the hidden bookkeeping to `last_step = 10` and `best_score = 0.5`. -/
theorem save_load_roundtrip (args : SaveArgs) (mode : Mode) (p : String) (h' : Hidden)
    (hns : args.no_save = false) (hint : (10 : Int) % args.save_interval = 0) :
    (load_checkpoint (some p)
        (fun _ => (save_checkpoint args 10 (PyFloat.val (1/2)) mode Hidden.fresh).record)
        h').last_step = 10 ∧
    (load_checkpoint (some p)
        (fun _ => (save_checkpoint args 10 (PyFloat.val (1/2)) mode Hidden.fresh).record)
        h').best_score = some (PyFloat.val (1/2)) := by
  generalize (1/2 : ℚ) = q
  have himp : improves mode (PyFloat.val q)
      ((Hidden.fresh.best_score).getD (default_score mode)) = true := by
    cases mode
    · show decide (PyFloat.val q < PyFloat.pinf) = true
      exact decide_eq_true (val_lt_pinf q)
    · show decide (PyFloat.ninf < PyFloat.val q) = true
      exact decide_eq_true (ninf_lt_val q)
  have hup : update_hidden 10 (PyFloat.val q) mode Hidden.fresh =
      { last_step := 10, best_score := some (PyFloat.val q), best_step := some 10 } := by
    rw [update_hidden_of_improves _ _ _ _ himp,
      show max Hidden.fresh.last_step (10 : Int) = 10 from by decide]
  have hg : (!args.no_save && (10 : Int) % args.save_interval == 0) = true := by
    simp [hns, hint]
  rw [save_io_eq args 10 (PyFloat.val q) mode Hidden.fresh 10 hg (by rw [hup]), hup]
  simp [load_checkpoint]

/-- C1 witness: concrete instantiation with `save_interval = 1`. -/
theorem save_load_roundtrip_witness :
    (load_checkpoint (some "checkpoint_last.pt")
        (fun _ => (save_checkpoint ⟨false, 1, false⟩ 10 (PyFloat.val (1/2)) Mode.min
          Hidden.fresh).record)
        Hidden.fresh).last_step = 10 ∧
    (load_checkpoint (some "checkpoint_last.pt")
        (fun _ => (save_checkpoint ⟨false, 1, false⟩ 10 (PyFloat.val (1/2)) Mode.min
          Hidden.fresh).record)
        Hidden.fresh).best_score = some (PyFloat.val (1/2)) :=
  save_load_roundtrip ⟨false, 1, false⟩ Mode.min "checkpoint_last.pt" Hidden.fresh rfl (by decide)

/-! ## Claim C6 -/

/-- C6: when `no_save` is set or `step` is not a multiple of `save_interval`,
`save_checkpoint` performs no I/O — no file write, no directory creation, no
record, no error — while the hidden bookkeeping is still updated:
`last_step` becomes `max(previous, step)` and the best pair is updated
exactly when the score strictly improves under the mode. -/
theorem save_no_io (args : SaveArgs) (step : Int) (score : PyFloat) (mode : Mode) (h : Hidden)
    (hcond : args.no_save = true ∨ ¬ step % args.save_interval = 0) :
    (save_checkpoint args step score mode h).writes = [] ∧
    (save_checkpoint args step score mode h).madeCheckpointDir = false ∧
    (save_checkpoint args step score mode h).record = none ∧
    (save_checkpoint args step score mode h).attrError = false ∧
    (save_checkpoint args step score mode h).hidden.last_step = max h.last_step step ∧
    (improves mode score (h.best_score.getD (default_score mode)) = true →
      (save_checkpoint args step score mode h).hidden.best_score = some score ∧
      (save_checkpoint args step score mode h).hidden.best_step = some step) ∧
    (improves mode score (h.best_score.getD (default_score mode)) = false →
      (save_checkpoint args step score mode h).hidden.best_score = h.best_score ∧
      (save_checkpoint args step score mode h).hidden.best_step = h.best_step) := by
  have hg : (!args.no_save && step % args.save_interval == 0) = false := by
    rcases hcond with h1 | h1 <;> simp [h1]
  rw [save_no_io_eq args step score mode h hg]
  refine ⟨rfl, rfl, rfl, rfl, update_hidden_last_step _ _ _ _, ?_, ?_⟩
  · intro himp
    rw [update_hidden_of_improves _ _ _ _ himp]
    exact ⟨rfl, rfl⟩
  · intro himp
    rw [update_hidden_of_not_improves _ _ _ _ himp]
    exact ⟨rfl, rfl⟩

/-- C6 witness: `no_save = true`, `step = 3`, `score = 2`, mode `min`, from a
fresh state. -/
theorem save_no_io_witness :
    (save_checkpoint ⟨true, 1, false⟩ 3 (PyFloat.val 2) Mode.min Hidden.fresh).writes = [] ∧
    (save_checkpoint ⟨true, 1, false⟩ 3 (PyFloat.val 2) Mode.min
      Hidden.fresh).madeCheckpointDir = false ∧
    (save_checkpoint ⟨true, 1, false⟩ 3 (PyFloat.val 2) Mode.min Hidden.fresh).record = none ∧
    (save_checkpoint ⟨true, 1, false⟩ 3 (PyFloat.val 2) Mode.min Hidden.fresh).attrError = false ∧
    (save_checkpoint ⟨true, 1, false⟩ 3 (PyFloat.val 2) Mode.min
      Hidden.fresh).hidden.last_step = max Hidden.fresh.last_step 3 ∧
    (save_checkpoint ⟨true, 1, false⟩ 3 (PyFloat.val 2) Mode.min
      Hidden.fresh).hidden.best_score = some (PyFloat.val 2) ∧
    (save_checkpoint ⟨true, 1, false⟩ 3 (PyFloat.val 2) Mode.min
      Hidden.fresh).hidden.best_step = some 3 :=
  have r := save_no_io ⟨true, 1, false⟩ 3 (PyFloat.val 2) Mode.min Hidden.fresh (Or.inl rfl)
  have himp : improves Mode.min (PyFloat.val 2)
      (Hidden.fresh.best_score.getD (default_score Mode.min)) = true := by decide
  ⟨r.1, r.2.1, r.2.2.1, r.2.2.2.1, r.2.2.2.2.1, (r.2.2.2.2.2.1 himp).1, (r.2.2.2.2.2.1 himp).2⟩

/-! ## Claim C10 -/

/-- C10: an I/O-performing `save_checkpoint` call raises `AttributeError`
whenever the hidden `best_step` attribute is unset and the current score does
not improve the current best (the `state_dict` literal reads
`save_checkpoint.best_step` without a fallback default, unlike `best_score`),
and it then writes no file; `load_checkpoint` never sets `best_step`; and
concretely a first save of a fresh process with `score = +inf` under mode
`min` raises. -/
theorem save_attr_error (args : SaveArgs) (step : Int) (score : PyFloat) (mode : Mode)
    (h : Hidden) (hns : args.no_save = false) (hint : step % args.save_interval = 0)
    (hbs : h.best_step = none)
    (hni : improves mode score (h.best_score.getD (default_score mode)) = false) :
    (save_checkpoint args step score mode h).attrError = true ∧
    (save_checkpoint args step score mode h).writes = [] ∧
    (∀ (p : String) (fs : String → Option Record) (h' : Hidden),
      (load_checkpoint (some p) fs h').best_step = h'.best_step) ∧
    (save_checkpoint ⟨false, 1, false⟩ 1 PyFloat.pinf Mode.min Hidden.fresh).attrError = true := by
  have hg : (!args.no_save && step % args.save_interval == 0) = true := by
    simp [hns, hint]
  have hb : (update_hidden step score mode h).best_step = none := by
    rw [update_hidden_of_not_improves _ _ _ _ hni]
    exact hbs
  rw [save_io_err_eq args step score mode h hg hb]
  exact ⟨rfl, rfl, fun p fs h' => load_best_step_eq (some p) fs h', by decide⟩

/-- C10 witness: the first save of a fresh process at `step = 1` with
`score = +inf` under mode `min` raises `AttributeError` and writes nothing,
and a concrete load leaves `best_step` untouched. -/
theorem save_attr_error_witness :
    (save_checkpoint ⟨false, 1, false⟩ 1 PyFloat.pinf Mode.min Hidden.fresh).attrError = true ∧
    (save_checkpoint ⟨false, 1, false⟩ 1 PyFloat.pinf Mode.min Hidden.fresh).writes = [] ∧
    (load_checkpoint (some "checkpoint_last.pt") (fun _ => none)
      Hidden.fresh).best_step = Hidden.fresh.best_step :=
  have r := save_attr_error ⟨false, 1, false⟩ 1 PyFloat.pinf Mode.min Hidden.fresh rfl
    (by decide) rfl (by decide)
  ⟨r.1, r.2.1, r.2.2.1 "checkpoint_last.pt" (fun _ => none) Hidden.fresh⟩

/-! ## Claim C3 -/

theorem save_hidden_eq (args : SaveArgs) (step : Int) (score : PyFloat) (mode : Mode)
    (h : Hidden) :
    (save_checkpoint args step score mode h).hidden = update_hidden step score mode h := by
  cases hg : (!args.no_save && step % args.save_interval == 0)
  · rw [save_no_io_eq args step score mode h hg]
  · cases hb : (update_hidden step score mode h).best_step with
    | none => rw [save_io_err_eq args step score mode h hg hb]
    | some b => rw [save_io_eq args step score mode h b hg hb]

theorem last_ckpt_mem_imp (a : SaveArgs) (s : Int) (sc : PyFloat) (m : Mode) (hh : Hidden)
    (hmem : FileWrite.lastCkpt ∈ (save_checkpoint a s sc m hh).writes) : s > hh.last_step := by
  cases hg : (!a.no_save && s % a.save_interval == 0)
  · rw [save_no_io_eq a s sc m hh hg] at hmem
    simp at hmem
  · cases hb : (update_hidden s sc m hh).best_step with
    | none =>
      rw [save_io_err_eq a s sc m hh hg hb] at hmem
      simp at hmem
    | some b =>
      rw [save_io_eq a s sc m hh b hg hb] at hmem
      by_cases hlt : s > hh.last_step
      · exact hlt
      · simp only [hlt, if_false] at hmem
        split_ifs at hmem <;> simp_all

/-- C3 counterexample: with `no_save` unset and `step` a multiple of
`save_interval`, a fresh process saving at `step = 10` with `score = +inf`
under mode `min` has `step` strictly above the previous `last_step` (-1),
yet `checkpoint_last.pt` is NOT written: the call dies with `AttributeError`
(`best_step` was never set) before any file write. -/
theorem last_ckpt_write_iff_cex :
    (⟨false, 1, false⟩ : SaveArgs).no_save = false ∧
    (10 : Int) % (⟨false, 1, false⟩ : SaveArgs).save_interval = 0 ∧
    (10 : Int) > Hidden.fresh.last_step ∧
    FileWrite.lastCkpt ∉
      (save_checkpoint ⟨false, 1, false⟩ 10 PyFloat.pinf Mode.min Hidden.fresh).writes := by
  decide

/-- C3 (amended): for every I/O-performing `save_checkpoint` call that
completes without `AttributeError`, `checkpoint_last.pt` is written iff
`step` strictly exceeds the hidden `last_step` from before the call; and a
second save at the same step never writes `checkpoint_last.pt`, whatever its
arguments. -/
theorem last_ckpt_write_iff (args args2 : SaveArgs) (step : Int) (score score2 : PyFloat)
    (mode mode2 : Mode) (h : Hidden)
    (hns : args.no_save = false) (hint : step % args.save_interval = 0)
    (hok : (save_checkpoint args step score mode h).attrError = false) :
    (FileWrite.lastCkpt ∈ (save_checkpoint args step score mode h).writes ↔
      step > h.last_step) ∧
    FileWrite.lastCkpt ∉
      (save_checkpoint args2 step score2 mode2
        (save_checkpoint args step score mode h).hidden).writes := by
  have hg : (!args.no_save && step % args.save_interval == 0) = true := by
    simp [hns, hint]
  constructor
  · cases hb : (update_hidden step score mode h).best_step with
    | none =>
      rw [save_io_err_eq args step score mode h hg hb] at hok
      simp at hok
    | some b =>
      rw [save_io_eq args step score mode h b hg hb]
      by_cases hlt : step > h.last_step <;> split_ifs <;> simp_all
  · intro hmem
    have h1 : step > (save_checkpoint args step score mode h).hidden.last_step :=
      last_ckpt_mem_imp args2 step score2 mode2 _ hmem
    rw [save_hidden_eq, update_hidden_last_step] at h1
    exact absurd h1 (not_lt.mpr (le_max_right _ _))

/-- C3 witness: concrete first save at step 10 (score 1, mode `min`) writes
`checkpoint_last.pt`; a repeat save at step 10 does not. -/
theorem last_ckpt_write_iff_witness :
    (FileWrite.lastCkpt ∈
        (save_checkpoint ⟨false, 1, false⟩ 10 (PyFloat.val 1) Mode.min Hidden.fresh).writes ↔
      (10 : Int) > Hidden.fresh.last_step) ∧
    FileWrite.lastCkpt ∉
      (save_checkpoint ⟨false, 1, false⟩ 10 (PyFloat.val 1) Mode.min
        (save_checkpoint ⟨false, 1, false⟩ 10 (PyFloat.val 1) Mode.min
          Hidden.fresh).hidden).writes :=
  last_ckpt_write_iff ⟨false, 1, false⟩ ⟨false, 1, false⟩ 10 (PyFloat.val 1) (PyFloat.val 1)
    Mode.min Mode.min Hidden.fresh rfl (by decide) (by decide)

/-! ## Claim C4 -/

/-- C4 counterexample: a checkpoint record that carries `best_step = 10`
(together with `last_step` and `best_score`) is loaded, yet the hidden
`best_step` is NOT restored — it stays unset — so the three pieces of hidden
bookkeeping are not all restored together. -/
theorem load_restores_cex :
    ((⟨10, PyFloat.val 1, some 10, some 10, some (PyFloat.val 1)⟩ : Record).best_step
      = some 10) ∧
    (load_checkpoint (some "checkpoint_last.pt")
        (fun _ => some ⟨10, PyFloat.val 1, some 10, some 10, some (PyFloat.val 1)⟩)
        Hidden.fresh).best_step = none ∧
    (load_checkpoint (some "checkpoint_last.pt")
        (fun _ => some ⟨10, PyFloat.val 1, some 10, some 10, some (PyFloat.val 1)⟩)
        Hidden.fresh).last_step = 10 := by
  decide

/-- C4 (amended): for every `load_checkpoint` call whose `restore_file` names
an existing checkpoint file, the hidden `last_step` and `best_score` are
restored from the record (each when present in it), but the hidden
`best_step` is never restored: it keeps its previous value. -/
theorem load_restores_fields (p : String) (fs : String → Option Record) (sd : Record)
    (h : Hidden) (hfs : fs p = some sd) :
    (load_checkpoint (some p) fs h).best_step = h.best_step ∧
    (load_checkpoint (some p) fs h).best_score =
      (match sd.best_score with
       | some v => some v
       | none => h.best_score) ∧
    (load_checkpoint (some p) fs h).last_step =
      (match sd.last_step with
       | some v => v
       | none => h.last_step) := by
  refine ⟨load_best_step_eq _ _ _, ?_, ?_⟩ <;>
    rcases hb : sd.best_score with _ | v <;> rcases hl : sd.last_step with _ | w <;>
      simp [load_checkpoint, hfs, hb, hl]

/-- C4 witness: loading a concrete record restores `last_step = 7` and
`best_score = 3` while `best_step` stays unset. -/
theorem load_restores_fields_witness :
    (load_checkpoint (some "checkpoint_best.pt")
        (fun _ => some ⟨7, PyFloat.val 3, some 7, some 7, some (PyFloat.val 3)⟩)
        Hidden.fresh).best_step = Hidden.fresh.best_step ∧
    (load_checkpoint (some "checkpoint_best.pt")
        (fun _ => some ⟨7, PyFloat.val 3, some 7, some 7, some (PyFloat.val 3)⟩)
        Hidden.fresh).best_score = some (PyFloat.val 3) ∧
    (load_checkpoint (some "checkpoint_best.pt")
        (fun _ => some ⟨7, PyFloat.val 3, some 7, some 7, some (PyFloat.val 3)⟩)
        Hidden.fresh).last_step = 7 :=
  load_restores_fields "checkpoint_best.pt"
    (fun _ => some ⟨7, PyFloat.val 3, some 7, some 7, some (PyFloat.val 3)⟩)
    ⟨7, PyFloat.val 3, some 7, some 7, some (PyFloat.val 3)⟩ Hidden.fresh rfl

/-! ## Claim C5 -/

/-- C5: divergence between the source and the claim.  `init_logging` computes
`"a" if os.path.isfile(args.resume_training) else "w"`, testing the boolean
`resume_training` flag (a file-descriptor 0/1 `stat` in Python), never the
configured restore file.  Concretely, with `no_log` unset, `log_file` set,
`resume_training = False`, and a restore file that DOES exist on disk (and
stdin/stdout not regular files), the code truncates (`"w"`) while the
claim/spec demand append (`"a"`). -/
theorem init_logging_mode_divergence :
    init_logging_file_mode false (some "train.log") false (fun _ => false) = some "w" ∧
    init_logging_file_mode_spec false (some "train.log") (some "checkpoint_last.pt")
      (fun p => if p = "checkpoint_last.pt"
                then some ⟨10, PyFloat.val 1, some 10, some 10, some (PyFloat.val 1)⟩
                else none) = some "a" := by
  constructor <;> rfl

/-! ## Claim C7 -/

/-- C7 counterexample: two `save_checkpoint` calls at the same qualifying
step (step 0, `step_checkpoints` set) BOTH write `checkpoint0.pt` — the
per-step file of a repeated step is overwritten. -/
theorem step_ckpt_overwrite_cex :
    FileWrite.stepCkpt 0 ∈
      (save_checkpoint ⟨false, 1, true⟩ 0 (PyFloat.val 1) Mode.min Hidden.fresh).writes ∧
    FileWrite.stepCkpt 0 ∈
      (save_checkpoint ⟨false, 1, true⟩ 0 (PyFloat.val 0) Mode.min
        (save_checkpoint ⟨false, 1, true⟩ 0 (PyFloat.val 1) Mode.min
          Hidden.fresh).hidden).writes := by
  decide

/-- C7 (amended): for every I/O-performing `save_checkpoint` call that
completes without `AttributeError`, the per-step file `checkpoint{step}.pt`
is written iff the `step_checkpoints` flag is set; and a call only ever
writes the per-step file of its own step, so saves at distinct steps write
distinct per-step paths (a repeated step, however, overwrites — see the
counterexample). -/
theorem step_ckpt_write_iff (args : SaveArgs) (step : Int) (score : PyFloat) (mode : Mode)
    (h : Hidden) (hns : args.no_save = false) (hint : step % args.save_interval = 0)
    (hok : (save_checkpoint args step score mode h).attrError = false) :
    (FileWrite.stepCkpt step ∈ (save_checkpoint args step score mode h).writes ↔
      args.step_checkpoints = true) ∧
    (∀ s : Int, FileWrite.stepCkpt s ∈ (save_checkpoint args step score mode h).writes →
      s = step) := by
  have hg : (!args.no_save && step % args.save_interval == 0) = true := by
    simp [hns, hint]
  cases hb : (update_hidden step score mode h).best_step with
  | none =>
    rw [save_io_err_eq args step score mode h hg hb] at hok
    simp at hok
  | some b =>
    rw [save_io_eq args step score mode h b hg hb]
    constructor
    · split_ifs <;> simp_all
    · intro s hmem
      split_ifs at hmem <;> simp_all

/-- C7 witness: a save at step 5 with `step_checkpoints` set writes
`checkpoint5.pt`. -/
theorem step_ckpt_write_iff_witness :
    FileWrite.stepCkpt 5 ∈
      (save_checkpoint ⟨false, 1, true⟩ 5 (PyFloat.val 1) Mode.min Hidden.fresh).writes ↔
    (⟨false, 1, true⟩ : SaveArgs).step_checkpoints = true :=
  (step_ckpt_write_iff ⟨false, 1, true⟩ 5 (PyFloat.val 1) Mode.min Hidden.fresh rfl
    (by decide) (by decide)).1

/-! ## Claim C8 -/

theorem getD_map_lt {α β : Type} (f : α → β) (l : List α) (i : Nat) (d : β) (d' : α)
    (hi : i < l.length) : (l.map f).getD i d = f (l.getD i d') := by
  induction l generalizing i with
  | nil => simp at hi
  | cons a t ih =>
    cases i with
    | zero => rfl
    | succ n => exact ih n (by simpa using hi)

/-- C8: `bool_mask(target, context)` is a T×C matrix whose entry `(i, j)` is
true iff `target[i] == context[j]`; with the float flag the entries are the
corresponding 0/1 rationals; and concretely
`bool_mask([1,2],[2,2,1]) = [[false,false,true],[true,true,false]]`. -/
theorem bool_mask_spec (target context : List Int) :
    (bool_mask target context).length = target.length ∧
    (∀ row ∈ bool_mask target context, row.length = context.length) ∧
    (∀ i j : Nat, i < target.length → j < context.length →
      ((bool_mask target context).getD i []).getD j false
        = decide (target.getD i 0 = context.getD j 0)) ∧
    (∀ i j : Nat, i < target.length → j < context.length →
      ((bool_mask_float target context).getD i []).getD j 0
        = if target.getD i 0 = context.getD j 0 then (1 : ℚ) else 0) ∧
    bool_mask [1, 2] [2, 2, 1] = [[false, false, true], [true, true, false]] := by
  refine ⟨by simp [bool_mask], ?_, ?_, ?_, by decide⟩
  · intro row hrow
    rw [bool_mask, List.mem_map] at hrow
    obtain ⟨t, _, rfl⟩ := hrow
    simp
  · intro i j hi hj
    rw [bool_mask, getD_map_lt _ target i [] 0 hi, getD_map_lt _ context j false 0 hj]
  · intro i j hi hj
    rw [bool_mask_float, bool_mask,
      getD_map_lt _ (target.map fun t => context.map fun c => decide (t = c)) i [] []
        (by simpa using hi),
      getD_map_lt _ target i _ 0 hi,
      getD_map_lt _ (context.map fun c => decide (target.getD i 0 = c)) j (0 : ℚ) false
        (by simpa using hj),
      getD_map_lt _ context j false 0 hj]
    by_cases heq : target.getD i 0 = context.getD j 0 <;> simp [heq]

/-- C8 witness: entry `(1, 0)` of `bool_mask([1,2],[2,2,1])` equals the label
comparison `2 == 2`, and its float counterpart is 1. -/
theorem bool_mask_spec_witness :
    ((bool_mask [1, 2] [2, 2, 1]).getD 1 []).getD 0 false
      = decide (([1, 2] : List Int).getD 1 0 = ([2, 2, 1] : List Int).getD 0 0) ∧
    ((bool_mask_float [1, 2] [2, 2, 1]).getD 1 []).getD 0 0
      = if ([1, 2] : List Int).getD 1 0 = ([2, 2, 1] : List Int).getD 0 0
        then (1 : ℚ) else 0 :=
  ⟨(bool_mask_spec [1, 2] [2, 2, 1]).2.2.1 1 0 (by decide) (by decide),
   (bool_mask_spec [1, 2] [2, 2, 1]).2.2.2.1 1 0 (by decide) (by decide)⟩

/-! ## Claim C9 -/

theorem mem_uniqueLabels {labels : List Int} {i : Int} :
    i ∈ uniqueLabels labels ↔ i ∈ labels := by
  unfold uniqueLabels
  rw [List.mem_mergeSort, List.mem_dedup]

theorem groupIndices_ne_nil {labels : List Int} {i : Int} (h : i ∈ labels) :
    groupIndices labels i ≠ [] := by
  obtain ⟨j, hj, hji⟩ := List.mem_iff_getElem.mp h
  have hmem : j ∈ groupIndices labels i := by
    unfold groupIndices
    rw [List.mem_filter]
    refine ⟨List.mem_range.mpr hj, ?_⟩
    rw [List.getD_eq_getElem?_getD, List.getElem?_eq_getElem hj]
    simp [hji]
  exact List.ne_nil_of_mem hmem

/-- C9 counterexample (negation of the claim): in `connectivity` the label
groups are formed only for labels drawn from `torch.unique(target_labels)`,
so on NO input does an iterated label have an empty group of rows — the
empty-group division-by-zero situation the claim asserts is unreachable. -/
theorem connectivity_empty_group_cex :
    ¬ ∃ (labels : List Int) (i : Int),
        i ∈ uniqueLabels labels ∧ groupIndices labels i = [] := by
  rintro ⟨labels, i, hmem, hemp⟩
  exact groupIndices_ne_nil (mem_uniqueLabels.mp hmem) hemp

/-- C9 (amended): every label occurring in `target_labels` is iterated, its
group of row indices is nonempty, and its `connectivity` entry is the group
sum divided by the group size, a positive count — so the division by
`len(scores)` never divides by zero and the claimed caller obligation
("every label in `target_labels` has at least one row") holds vacuously. -/
theorem connectivity_no_empty_group (gc : List ℚ) (labels : List Int) (i : Int)
    (hmem : i ∈ labels) :
    i ∈ uniqueLabels labels ∧
    0 < (groupIndices labels i).length ∧
    (i, ((groupIndices labels i).map (fun j => gc.getD j 0)).foldl (· + ·) 0 /
        (((groupIndices labels i).map (fun j => gc.getD j 0)).length : ℚ)) ∈
      connectivity gc labels := by
  have hu : i ∈ uniqueLabels labels := mem_uniqueLabels.mpr hmem
  refine ⟨hu, ?_, ?_⟩
  · rcases hne : groupIndices labels i with _ | ⟨a, t⟩
    · exact absurd hne (groupIndices_ne_nil hmem)
    · simp
  · unfold connectivity
    rw [List.mem_map]
    exact ⟨i, hu, rfl⟩

/-- C9 witness: in `connectivity([1,2,3,4], [3,1,2,1])` the label 1 group is
the (nonempty) index set {1, 3} and its entry is (2+4)/2. -/
theorem connectivity_no_empty_group_witness :
    (1 : Int) ∈ uniqueLabels [3, 1, 2, 1] ∧
    0 < (groupIndices [3, 1, 2, 1] 1).length ∧
    ((1 : Int), ((groupIndices [3, 1, 2, 1] 1).map
        (fun j => ([1, 2, 3, 4] : List ℚ).getD j 0)).foldl (· + ·) 0 /
        (((groupIndices [3, 1, 2, 1] 1).map
          (fun j => ([1, 2, 3, 4] : List ℚ).getD j 0)).length : ℚ)) ∈
      connectivity [1, 2, 3, 4] [3, 1, 2, 1] :=
  connectivity_no_empty_group [1, 2, 3, 4] [3, 1, 2, 1] 1 (by decide)

/-! ## Claim C2 -/

theorem save_best_pair (args : SaveArgs) (step : Int) (score : PyFloat) (mode : Mode)
    (h : Hidden) :
    (improves mode score (h.best_score.getD (default_score mode)) = true →
      (save_checkpoint args step score mode h).hidden.best_score = some score ∧
      (save_checkpoint args step score mode h).hidden.best_step = some step) ∧
    (improves mode score (h.best_score.getD (default_score mode)) = false →
      (save_checkpoint args step score mode h).hidden.best_score = h.best_score ∧
      (save_checkpoint args step score mode h).hidden.best_step = h.best_step) := by
  simp only [save_hidden_eq]
  constructor
  · intro himp
    rw [update_hidden_of_improves _ _ _ _ himp]
    exact ⟨rfl, rfl⟩
  · intro himp
    rw [update_hidden_of_not_improves _ _ _ _ himp]
    exact ⟨rfl, rfl⟩

theorem run_saves_min_all_upd (args : SaveArgs) (l : List (Int × PyFloat)) :
    ∀ (h : Hidden) (b : PyFloat),
      h.best_score = some b →
      List.Chain' (fun a c : Int × PyFloat => c.2 < a.2) l →
      (∀ x ∈ l.head?, x.2 < b) →
      ∀ f ∈ (run_saves args Mode.min h l).2, f = true := by
  induction l with
  | nil =>
    intro h b _ _ _ f hf
    simp [run_saves] at hf
  | cons x rest ih =>
    obtain ⟨step, score⟩ := x
    intro h b hb hchain hhead f hf
    have hlt : score < b := hhead (step, score) rfl
    rcases List.chain'_cons'.mp hchain with ⟨hR, hchain'⟩
    have himp : improves Mode.min score (h.best_score.getD (default_score Mode.min)) = true := by
      rw [hb]
      exact decide_eq_true hlt
    have hb' : (save_checkpoint args step score Mode.min h).hidden.best_score = some score :=
      ((save_best_pair args step score Mode.min h).1 himp).1
    simp only [run_saves] at hf
    rcases List.mem_cons.mp hf with hfe | hfm
    · rw [hfe]
      exact himp
    · exact ih _ score hb' hchain' hR f hfm

theorem run_saves_min_no_upd (args : SaveArgs) (l : List (Int × PyFloat)) :
    ∀ (h : Hidden),
      List.Chain' (fun a c : Int × PyFloat => a.2 ≤ c.2) l →
      (∀ x ∈ l.head?, ¬ x.2 < h.best_score.getD (default_score Mode.min)) →
      ∀ f ∈ (run_saves args Mode.min h l).2, f = false := by
  induction l with
  | nil =>
    intro h _ _ f hf
    simp [run_saves] at hf
  | cons x rest ih =>
    obtain ⟨step, score⟩ := x
    intro h hchain hhead f hf
    have hnlt : ¬ score < h.best_score.getD (default_score Mode.min) := hhead (step, score) rfl
    rcases List.chain'_cons'.mp hchain with ⟨hR, hchain'⟩
    have himp : improves Mode.min score (h.best_score.getD (default_score Mode.min)) = false :=
      decide_eq_false hnlt
    have hkeep : (save_checkpoint args step score Mode.min h).hidden.best_score = h.best_score :=
      ((save_best_pair args step score Mode.min h).2 himp).1
    simp only [run_saves] at hf
    rcases List.mem_cons.mp hf with hfe | hfm
    · rw [hfe]
      exact himp
    · refine ih _ hchain' ?_ f hfm
      intro y hy
      rw [hkeep]
      intro hylt
      exact hnlt (lt_of_le_of_lt (hR y hy) hylt)

/-- C2 counterexample: from a fresh process under mode `min`, the score
sequence `[+inf, 5]` is strictly decreasing, yet the FIRST call does not
update the hidden best pair (`inf < inf` is false — `best_score` and
`best_step` stay unset), so a strictly decreasing score sequence need not
update `best_score`/`best_step` on each call. -/
theorem best_update_cex :
    List.Chain' (fun a b : Int × PyFloat => b.2 < a.2)
      [((1 : Int), PyFloat.pinf), ((2 : Int), PyFloat.val 5)] ∧
    (save_checkpoint ⟨true, 1, false⟩ 1 PyFloat.pinf Mode.min
      Hidden.fresh).hidden.best_score = none ∧
    (save_checkpoint ⟨true, 1, false⟩ 1 PyFloat.pinf Mode.min
      Hidden.fresh).hidden.best_step = none ∧
    (run_saves ⟨true, 1, false⟩ Mode.min Hidden.fresh
      [((1 : Int), PyFloat.pinf), ((2 : Int), PyFloat.val 5)]).2 = [false, true] := by
  refine ⟨?_, by decide, by decide, by decide⟩
  rw [List.chain'_cons]
  exact ⟨val_lt_pinf 5, List.chain'_singleton _⟩

/-- C2 (amended): on every `save_checkpoint` call the hidden
`best_score`/`best_step` pair becomes `(score, step)` if the score strictly
improves the current best under the configured mode and is unchanged
otherwise; the hidden `last_step` is monotonically non-decreasing across
calls; under mode `min`, a strictly decreasing score sequence from a fresh
process whose FIRST score is not `+inf` updates the pair on every call, and
a non-decreasing sequence never updates it after the first value. -/
theorem best_update_invariant :
    (∀ (args : SaveArgs) (step : Int) (score : PyFloat) (mode : Mode) (h : Hidden),
      (improves mode score (h.best_score.getD (default_score mode)) = true →
        (save_checkpoint args step score mode h).hidden.best_score = some score ∧
        (save_checkpoint args step score mode h).hidden.best_step = some step) ∧
      (improves mode score (h.best_score.getD (default_score mode)) = false →
        (save_checkpoint args step score mode h).hidden.best_score = h.best_score ∧
        (save_checkpoint args step score mode h).hidden.best_step = h.best_step)) ∧
    (∀ (args : SaveArgs) (step : Int) (score : PyFloat) (mode : Mode) (h : Hidden),
      h.last_step ≤ (save_checkpoint args step score mode h).hidden.last_step) ∧
    (∀ (args : SaveArgs) (s0 : Int × PyFloat) (rest : List (Int × PyFloat)),
      s0.2 ≠ PyFloat.pinf →
      List.Chain' (fun a c : Int × PyFloat => c.2 < a.2) (s0 :: rest) →
      ∀ f ∈ (run_saves args Mode.min Hidden.fresh (s0 :: rest)).2, f = true) ∧
    (∀ (args : SaveArgs) (s0 : Int × PyFloat) (rest : List (Int × PyFloat)),
      List.Chain' (fun a c : Int × PyFloat => a.2 ≤ c.2) (s0 :: rest) →
      ∀ f ∈ ((run_saves args Mode.min Hidden.fresh (s0 :: rest)).2).tail, f = false) := by
  refine ⟨save_best_pair, ?_, ?_, ?_⟩
  · intro args step score mode h
    rw [save_hidden_eq, update_hidden_last_step]
    exact le_max_left _ _
  · rintro args ⟨st0, sc0⟩ rest hne hchain f hf
    rcases List.chain'_cons'.mp hchain with ⟨hR, hchain'⟩
    have himp : improves Mode.min sc0
        (Hidden.fresh.best_score.getD (default_score Mode.min)) = true := by
      show decide (sc0 < PyFloat.pinf) = true
      exact decide_eq_true (lt_pinf_of_ne hne)
    have hb1 : (save_checkpoint args st0 sc0 Mode.min Hidden.fresh).hidden.best_score
        = some sc0 :=
      ((save_best_pair args st0 sc0 Mode.min Hidden.fresh).1 himp).1
    simp only [run_saves] at hf
    rcases List.mem_cons.mp hf with hfe | hfm
    · rw [hfe]
      exact himp
    · exact run_saves_min_all_upd args rest _ sc0 hb1 hchain' hR f hfm
  · rintro args ⟨st0, sc0⟩ rest hchain f hf
    rcases List.chain'_cons'.mp hchain with ⟨hR, hchain'⟩
    simp only [run_saves, List.tail_cons] at hf
    cases himp : improves Mode.min sc0
        (Hidden.fresh.best_score.getD (default_score Mode.min)) with
    | true =>
      have hb1 : (save_checkpoint args st0 sc0 Mode.min Hidden.fresh).hidden.best_score
          = some sc0 :=
        ((save_best_pair args st0 sc0 Mode.min Hidden.fresh).1 himp).1
      refine run_saves_min_no_upd args rest _ hchain' ?_ f hf
      intro y hy
      rw [hb1]
      exact not_lt.mpr (hR y hy)
    | false =>
      have hkeep : (save_checkpoint args st0 sc0 Mode.min Hidden.fresh).hidden.best_score
          = Hidden.fresh.best_score :=
        ((save_best_pair args st0 sc0 Mode.min Hidden.fresh).2 himp).1
      have hnlt : ¬ sc0 < PyFloat.pinf := of_decide_eq_false himp
      have hs0 : sc0 = PyFloat.pinf := by
        by_contra hne
        exact hnlt (lt_pinf_of_ne hne)
      refine run_saves_min_no_upd args rest _ hchain' ?_ f hf
      intro y hy
      rw [hkeep]
      have hy2 : y.2 = PyFloat.pinf := by
        have h1 : sc0 ≤ y.2 := hR y hy
        rw [hs0, pinf_eq_top] at h1
        rw [pinf_eq_top]
        exact top_le_iff.mp h1
      show ¬ y.2 < PyFloat.pinf
      rw [hy2]
      exact lt_irrefl _

/-- C2 witness: concrete instantiations — the first save of a fresh process
with score 5 under mode `min` sets the best pair to `(5, step 1)`, and the
singleton strictly decreasing sequence `[5]` updates on its only call. -/
theorem best_update_invariant_witness :
    (save_checkpoint ⟨true, 1, false⟩ 1 (PyFloat.val 5) Mode.min
      Hidden.fresh).hidden.best_score = some (PyFloat.val 5) ∧
    (save_checkpoint ⟨true, 1, false⟩ 1 (PyFloat.val 5) Mode.min
      Hidden.fresh).hidden.best_step = some 1 ∧
    ((run_saves ⟨true, 1, false⟩ Mode.min Hidden.fresh
      [((1 : Int), PyFloat.val 5)]).2).getD 0 false = true :=
  have r := best_update_invariant
  have h1 := (r.1 ⟨true, 1, false⟩ 1 (PyFloat.val 5) Mode.min Hidden.fresh).1 (by decide)
  have hmem : ((run_saves ⟨true, 1, false⟩ Mode.min Hidden.fresh
      [((1 : Int), PyFloat.val 5)]).2).getD 0 false ∈
      (run_saves ⟨true, 1, false⟩ Mode.min Hidden.fresh [((1 : Int), PyFloat.val 5)]).2 := by
    decide
  have h3 := r.2.2.1 ⟨true, 1, false⟩ ((1 : Int), PyFloat.val 5) [] (by decide)
    (List.chain'_singleton _) _ hmem
  ⟨h1.1, h1.2, h3⟩

end TrainUtils
